import Mathlib

/-!
Verification of the creator-universe product/variant model.

Shallow embedding of the product catalog core of the repository:
* `product.model` — the Mongoose `ProductSchema` with its `pre("validate")`
  integrity hook, schema-level validators and the `effectivePrice` /
  `discountPercent` virtuals;
* `AdminProductController` — `create`, `getOne` (resolution projection),
  `updateById` and `bulkDelete`.

JavaScript numbers are modelled as `ℚ` (prices) and `ℤ` (stocks, timestamps);
absent / non-number JS values are modelled with `Option`.  Mongoose
`Date` values are epoch milliseconds (`ℤ`).  Fallible operations return
`Except`.
-/

namespace CreatorUniverse

instance {ε α : Type} [DecidableEq ε] [DecidableEq α] : DecidableEq (Except ε α) := fun x y =>
  match x, y with
  | .ok a, .ok b =>
    if h : a = b then .isTrue (by rw [h]) else .isFalse (by intro hc; injection hc; contradiction)
  | .error e, .error f =>
    if h : e = f then .isTrue (by rw [h]) else .isFalse (by intro hc; injection hc; contradiction)
  | .ok _, .error _ => .isFalse (by intro hc; injection hc)
  | .error _, .ok _ => .isFalse (by intro hc; injection hc)

/-! ## JS / Mongo primitives -/

/-- `/^[a-fA-F0-9]{24}$/` — the 24-hex ObjectId shape test used throughout. -/
def isHexDigit (c : Char) : Bool :=
  (Char.ofNat 97 ≤ c && c ≤ Char.ofNat 102) ||   -- a-f
  (Char.ofNat 65 ≤ c && c ≤ Char.ofNat 70) ||    -- A-F
  (Char.ofNat 48 ≤ c && c ≤ Char.ofNat 57)       -- 0-9

def isHex24 (s : String) : Bool :=
  s.data.length = 24 && s.data.all isHexDigit

/-- `mongoose.isValidObjectId` on strings: 24-hex, or any 12-character string. -/
def isValidObjectIdStr (s : String) : Bool :=
  isHex24 s || s.data.length = 12

/-- The dynamic `string | string[]` shape of `attributesValueId`. -/
inductive IdOrIds where
  | single (id : String)
  | multiple (ids : List String)
  deriving Repr, DecidableEq

/-- `const toArray = (v) => (Array.isArray(v) ? v : [v])`. -/
def toArray : IdOrIds → List String
  | .single id => [id]
  | .multiple ids => ids

/-- Character classes the JS regexes use.  `\s` (main ASCII whitespace). -/
def isRegexSpace (c : Char) : Bool :=
  c = ' ' || c = Char.ofNat 9 || c = Char.ofNat 10 || c = Char.ofNat 13 ||
  c = Char.ofNat 11 || c = Char.ofNat 12

/-- `urlValidator = (v) => /^https?:\/\/[^\s\/$.?#].[^\s]*$/i.test(v)`
(`product.model`).  The `i` flag only affects the literal `https` prefix. -/
def urlValidator (s : String) : Bool :=
  match s.data.map Char.toLower with
  | 'h' :: 't' :: 't' :: 'p' :: rest =>
    let rest := match rest with
      | 's' :: r => r
      | r => r
    match rest with
    | ':' :: '/' :: '/' :: c1 :: c2 :: tail =>
      !(isRegexSpace c1) && !(c1 = '/' || c1 = '$' || c1 = '.' || c1 = '?' || c1 = '#') &&
      !(c2 = Char.ofNat 10 || c2 = Char.ofNat 13) &&
      tail.all (fun c => !(isRegexSpace c))
    | _ => false
  | _ => false

/-- `[a-z0-9]` — the characters the slug regex keeps. -/
def isLowerAlnum (c : Char) : Bool :=
  (97 ≤ c.toNat && c.toNat ≤ 122) || (48 ≤ c.toNat && c.toNat ≤ 57)

/-- JS `String.prototype.trim` on one side: drop leading whitespace. -/
def jsTrimChars (l : List Char) : List Char :=
  ((l.dropWhile isRegexSpace).reverse.dropWhile isRegexSpace).reverse

/-- Collapse every run of dashes to a single dash (structural helper for the
`/[^a-z0-9]+/g → "-"` replacement: after mapping every non-alphanumeric
character to a dash, each maximal run of the original non-alphanumeric
characters is a maximal run of dashes, which this squeezes to one). -/
def squeezeDashes : List Char → List Char
  | [] => []
  | [c] => [c]
  | a :: b :: rest =>
    if a = '-' ∧ b = '-' then squeezeDashes (b :: rest)
    else a :: squeezeDashes (b :: rest)

/-- `.replace(/[^a-z0-9]+/g, "-")`: every maximal run of characters outside
`[a-z0-9]` becomes a single `-`. -/
def collapseRuns (l : List Char) : List Char :=
  squeezeDashes (l.map (fun c => if isLowerAlnum c then c else '-'))

/-- One step of `.replace(/(^-|-$)+/g, "")`: the regex can only match the
single leading dash and the single trailing dash of the string, so the
replacement removes the first character when it is a dash (and, via
`stripEndDashes`, the last character when it is a dash). -/
def dropLeadingDash (l : List Char) : List Char :=
  match l with
  | [] => []
  | c :: rest => if c = '-' then rest else l

/-- `.replace(/(^-|-$)+/g, "")`. -/
def stripEndDashes (l : List Char) : List Char :=
  ((dropLeadingDash l).reverse |> dropLeadingDash).reverse

/-- The slug normalization pipeline used by `AdminProductController.create`
and `updateById`:
`String(slug).toLowerCase().trim().replace(/[^a-z0-9]+/g, "-").replace(/(^-|-$)+/g, "")`. -/
def normalizeSlugChars (l : List Char) : List Char :=
  stripEndDashes (collapseRuns (jsTrimChars (l.map Char.toLower)))

def normalizeSlug (s : String) : String := ⟨normalizeSlugChars s.data⟩

/-- Adjacent characters are never both dashes. -/
def slugR (a b : Char) : Prop := ¬(a = '-' ∧ b = '-')

/-- A normalized slug: only `[a-z0-9-]`, no dash runs, no dash at either end. -/
def GoodSlug (l : List Char) : Prop :=
  (∀ c ∈ l, isLowerAlnum c = true ∨ c = '-') ∧
  List.Chain' slugR l ∧
  (∀ c, l.head? = some c → c ≠ '-') ∧
  (∀ c, l.getLast? = some c → c ≠ '-')

/-- JS `Set` insertion-order deduplication (`Array.from(new Set(xs))`):
keeps the first occurrence of each element. -/
def insertionDedupGo (seen : List String) : List String → List String
  | [] => []
  | x :: xs => if x ∈ seen then insertionDedupGo seen xs else x :: insertionDedupGo (x :: seen) xs

def insertionDedup (l : List String) : List String := insertionDedupGo [] l

/-! ## Data model (`product.model`, `attribute.model`) -/

/-- An `AttributeValue` subdocument of the attribute catalog. -/
structure AttrValue where
  _id : String
  label : String
  value : Option String := none
  meta : Option String := none
  deriving Repr, DecidableEq

/-- An `Attribute` catalog record. -/
structure AttributeRec where
  _id : String
  name : String
  code : String
  type : String
  values : List AttrValue := []
  isActive : Bool := true
  deriving Repr, DecidableEq

/-- A `VariantValueSchema` pair `{attributeId, attributesValueId, stock, imageUrl}`.
`stock` has schema default 0, so an absent stock is cast to 0 at save time;
`none` models an absent / non-number JS value before casting. -/
structure VariantPair where
  attributeId : String
  attributesValueId : IdOrIds
  stock : Option Int := none
  imageUrl : Option String := none
  deriving Repr, DecidableEq

/-- A `VariantSchema` subdocument.  `none` on `price`/`stock` models an
absent or non-number JS value (both are `required` with no default). -/
structure Variant where
  sku : Option String := none
  price : Option ℚ := none
  salePrice : Option ℚ := none
  stock : Option Int := none
  imageUrl : Option String := none
  barcode : Option String := none
  values : List VariantPair := []
  isActive : Bool := true
  deriving Repr, DecidableEq

/-- A `ProductSchema` document.  Dates are epoch milliseconds. -/
structure Product where
  title : String
  slug : String := ""
  description : Option String := none
  brand : Option String := none
  category : Option String := none
  mainAttributeId : Option String := none
  imageUrl : String := ""
  price : Option ℚ := none
  salePrice : Option ℚ := none
  offerStart : Option Int := none
  offerEnd : Option Int := none
  currency : String := "USD"
  stock : Option Int := none
  variants : List Variant := []
  isActive : Bool := true
  totalStock : Int := 0
  deriving Repr, DecidableEq

/-! ## `ProductSchema.pre("validate")` — integrity & aggregation hook -/

/-- `this.variants.reduce((sum, v) => sum + (v.stock || 0), 0)`.
`v.stock || 0` maps an absent stock to 0 and fixes 0, i.e. `Option.getD 0`. -/
def sumVariantStocks (vs : List Variant) : Int :=
  vs.foldl (fun sum v => sum + v.stock.getD 0) 0

/-- The `pre("validate")` hook (`product.model`, lines 178-199).  Runs before
schema validation on every `create`/`save`; an `Error` passed to `next`
aborts persistence.  `!this.mainAttributeId` is also true for the empty
string (JS falsiness). -/
def productPreValidate (p : Product) : Except String Product :=
  if p.variants.length > 0 then
    match p.mainAttributeId with
    | none => .error "Variant product requires mainAttributeId"
    | some m =>
      if m = "" then .error "Variant product requires mainAttributeId"
      else if p.variants.all (fun v => v.values.any (fun q => q.attributeId = m)) then
        .ok { p with totalStock := sumVariantStocks p.variants, stock := none }
      else
        .error "Every variant must include a value for mainAttributeId"
  else
    match p.price with
    | none => .error "Simple product requires price"
    | some _ =>
      match p.stock with
      | none => .error "Simple product requires stock"
      | some st => .ok { p with totalStock := if st = 0 then 0 else st }

/-! ## Schema-level validators (run after the hook, before the write) -/

/-- `attributesValueId` validator: 24-hex string or non-empty array of them. -/
def validIdOrIds : IdOrIds → Bool
  | .single s => isHex24 s
  | .multiple l => decide (l.length > 0) && l.all isHex24

/-- `validateVariantValue` (`product.model`, lines 67-83) plus the
field-level validators of `VariantValueSchema`, which check the same
conditions.  `v.imageUrl && !urlValidator(v.imageUrl)`: the empty string is
falsy and passes. -/
def validateVariantValue (p : VariantPair) : Bool :=
  isHex24 p.attributeId &&
  validIdOrIds p.attributesValueId &&
  (match p.stock with
   | none => true          -- schema default 0 satisfies `min: 0`
   | some s => decide (0 ≤ s)) &&
  (match p.imageUrl with
   | none => true
   | some u => u = "" || urlValidator u)

/-- `VariantSchema` validators: `price`/`stock` required and `min: 0`,
`values` required non-empty with `validateVariantValue` on each entry,
`salePrice`/`imageUrl` optional. -/
def variantSchemaValid (v : Variant) : Bool :=
  (match v.price with | none => false | some x => decide (0 ≤ x)) &&
  (match v.salePrice with | none => true | some x => decide (0 ≤ x)) &&
  (decide (v.values.length > 0) && v.values.all validateVariantValue) &&
  (match v.stock with | none => false | some s => decide (0 ≤ s)) &&
  (match v.imageUrl with | none => true | some u => u = "" || urlValidator u)

/-- `ProductSchema` validators: `title`/`slug`/`imageUrl` required (Mongoose
`required` rejects the empty string), `imageUrl` must pass `urlValidator`,
`mainAttributeId` is `!v || isHex24(v)`, numeric fields `min: 0`, and every
variant subdocument must validate. -/
def productSchemaValid (p : Product) : Bool :=
  !(p.title = "") && !(p.slug = "") &&
  (match p.mainAttributeId with | none => true | some m => m = "" || isHex24 m) &&
  urlValidator p.imageUrl &&
  (match p.price with | none => true | some x => decide (0 ≤ x)) &&
  (match p.salePrice with | none => true | some x => decide (0 ≤ x)) &&
  (match p.stock with | none => true | some s => decide (0 ≤ s)) &&
  p.variants.all variantSchemaValid

/-- A Mongoose `create`/`save`: run the `pre("validate")` hook, then the
schema validators; only a document passing both is persisted.  (The
`pre("save")` auto-slug hook touches only `slug`, which no claim below
depends on, and runs after validation.) -/
def mongooseSave (p : Product) : Except String Product :=
  match productPreValidate p with
  | .error e => .error e
  | .ok q => if productSchemaValid q then .ok q else .error "ValidationError"

/-! ## Read-time virtuals (`product.model`, lines 124-136 and 201-215) -/

/-- JS `Math.round`: round half toward positive infinity. -/
def jsRound (q : ℚ) : Int := (q + 1/2).floor

/-- `(!this.offerStart || this.offerStart <= now) && (!this.offerEnd || this.offerEnd >= now)`.
A stored `Date` is always truthy; absence is the only falsy case. -/
def offerWindowContains (p : Product) (now : Int) : Bool :=
  (match p.offerStart with | none => true | some s => decide (s ≤ now)) &&
  (match p.offerEnd with | none => true | some e => decide (now ≤ e))

/-- The `effectivePrice` product virtual: the sale price when it is a number
and `new Date()` falls in the offer window, else the base price.  Never
stored; computed on read. -/
def productEffectivePrice (p : Product) (now : Int) : Option ℚ :=
  match p.salePrice with
  | some sp => if offerWindowContains p now then some sp else p.price
  | none => p.price

/-- The `discountPercent` product virtual. -/
def productDiscountPercent (p : Product) (now : Int) : Int :=
  match p.price, productEffectivePrice p now with
  | some base, some eff =>
    if 0 < base ∧ eff < base then jsRound ((base - eff) / base * 100) else 0
  | _, _ => 0

/-- The `effectivePrice` variant virtual (no offer window at variant level). -/
def variantEffectivePrice (v : Variant) : Option ℚ :=
  match v.salePrice with
  | some sp => some sp
  | none => v.price

/-- The `discountPercent` variant virtual. -/
def variantDiscountPercent (v : Variant) : Int :=
  match v.price, variantEffectivePrice v with
  | some base, some eff =>
    if 0 < base ∧ eff < base then jsRound ((base - eff) / base * 100) else 0
  | _, _ => 0

/-! ## `AdminProductController.create` (`part_000`, lines 131-277) -/

/-- The typed 4xx/5xx responses `create` can produce.  Constructor payloads
mirror the JSON bodies (`attributeIds`, `missingValueIds`, variant index). -/
inductive CreateErr where
  | simpleNeedsPrice
  | simpleNeedsStock
  | variantShape
  | invalidAttributeId (id : String)
  | invalidValueIds (attributeId : String)
  | negativePairStock
  | unknownAttributeIds (ids : List String)
  | attributeNotLoaded (id : String)
  | valuesNotOnAttribute (attributeId : String) (missingValueIds : List String)
  | multipleAttributesNeedMain
  | mainNotHex
  | mainNotUsed
  | variantMissingMain (idx : Nat) (mainId : String)
  | internal (msg : String)
  deriving Repr, DecidableEq

/-- The request body of `create`.  `variants = none` models an absent or
non-array value; category normalization (ObjectId wrapping) is not
observable in this model and `category` is carried as an opaque id. -/
structure CreatePayload where
  title : String := ""
  slug : Option String := none
  description : Option String := none
  brand : Option String := none
  category : Option String := none
  mainAttributeId : Option String := none
  imageUrl : String := ""
  price : Option ℚ := none
  salePrice : Option ℚ := none
  offerStart : Option Int := none
  offerEnd : Option Int := none
  currency : Option String := none
  stock : Option Int := none
  variants : Option (List Variant) := none
  isActive : Option Bool := none
  deriving Repr, DecidableEq

/-- The inner `for (const pair of v.values)` loop of `create`
(lines 176-192): first violation wins.  A `pair.imageUrl` is always a
string in the typed model, so the string-type check cannot fire. -/
def checkPairsShape : List VariantPair → Except CreateErr Unit
  | [] => .ok ()
  | pair :: rest =>
    if ¬ isHex24 pair.attributeId then .error (.invalidAttributeId pair.attributeId)
    else
      let ids := toArray pair.attributesValueId
      if ids.length = 0 ∨ ¬ ids.all isHex24 then .error (.invalidValueIds pair.attributeId)
      else
        match pair.stock with
        | none => .error .negativePairStock
        | some s => if s < 0 then .error .negativePairStock else checkPairsShape rest

/-- The outer `for (const v of variants)` loop of lines 176-192. -/
def checkVariantsShape : List Variant → Except CreateErr Unit
  | [] => .ok ()
  | v :: rest =>
    match checkPairsShape v.values with
    | .error e => .error e
    | .ok _ => checkVariantsShape rest

/-- `Array.from(new Set(variants.flatMap(v => v.values.map(p => p.attributeId))))`. -/
def distinctAttrIds (variants : List Variant) : List String :=
  insertionDedup (variants.flatMap (fun v => v.values.map (fun p => p.attributeId)))

/-- `Attribute.find({ _id: { $in: ids } })`: only matching catalog records,
in catalog order. -/
def attrsFind (catalog : List AttributeRec) (ids : List String) : List AttributeRec :=
  catalog.filter (fun a => a._id ∈ ids)

/-- The `valuesByAttr` map of lines 200-205: attribute id → its value-id set
(`Map.get` on a map keyed by `_id`; ids are unique in the store, so first
match is the map entry). -/
def valuesByAttr (attrs : List AttributeRec) (id : String) : Option (List String) :=
  (attrs.find? (fun a => a._id = id)).map (fun a => a.values.map (fun v => v._id))

/-- Inner pair loop of validation step 5 (lines 206-220): for one pair,
collect every referenced value id that is not on the attribute; fail on the
first pair that has any. -/
def checkValueIdsPairs (lookup : String → Option (List String)) :
    List VariantPair → Except CreateErr Unit
  | [] => .ok ()
  | pair :: rest =>
    match lookup pair.attributeId with
    | none => .error (.attributeNotLoaded pair.attributeId)
    | some allowed =>
      let bad := (toArray pair.attributesValueId).filter (fun vid => ¬ vid ∈ allowed)
      if bad.length > 0 then .error (.valuesNotOnAttribute pair.attributeId bad)
      else checkValueIdsPairs lookup rest

/-- Outer variant loop of validation step 5. -/
def checkValueIds (lookup : String → Option (List String)) :
    List Variant → Except CreateErr Unit
  | [] => .ok ()
  | v :: rest =>
    match checkValueIdsPairs lookup v.values with
    | .error e => .error e
    | .ok _ => checkValueIds lookup rest

/-- Main-attribute resolution (lines 222-239).  With exactly one distinct
attribute id the caller input is not consulted at all; otherwise it is
required (JS falsiness: the empty string counts as missing), must be
24-hex, and must be one of the used ids. -/
def resolveMainAttribute (allAttrIds : List String) (payloadMain : Option String) :
    Except CreateErr String :=
  match allAttrIds with
  | [a] => .ok a
  | _ =>
    match payloadMain with
    | none => .error .multipleAttributesNeedMain
    | some m =>
      if m = "" then .error .multipleAttributesNeedMain
      else if ¬ isHex24 m then .error .mainNotHex
      else if ¬ m ∈ allAttrIds then .error .mainNotUsed
      else .ok m

/-- `for (const [idx, v] of variants.entries())` (lines 241-245). -/
def checkVariantsHaveMainGo (mainId : String) (idx : Nat) :
    List Variant → Except CreateErr Unit
  | [] => .ok ()
  | v :: rest =>
    if v.values.any (fun p => p.attributeId = mainId) then
      checkVariantsHaveMainGo mainId (idx + 1) rest
    else .error (.variantMissingMain idx mainId)

def checkVariantsHaveMain (variants : List Variant) (mainId : String) :
    Except CreateErr Unit :=
  checkVariantsHaveMainGo mainId 0 variants

/-- `cleanedVariants` (lines 247-260): keep the recognized fields, default
`imageUrl`/`barcode` to `null`; `isActive` is dropped and re-defaulted by
the schema. -/
def cleanVariants (variants : List Variant) : List Variant :=
  variants.map fun v =>
    { sku := v.sku, price := v.price, salePrice := v.salePrice, stock := v.stock,
      imageUrl := v.imageUrl, barcode := v.barcode,
      values := v.values.map fun p =>
        { attributeId := p.attributeId, attributesValueId := p.attributesValueId,
          stock := p.stock, imageUrl := p.imageUrl } }

/-- The document Mongoose builds from the (possibly slug-normalized)
payload; schema defaults `currency := "USD"`, `variants := []`. -/
def productOfPayload (payload : CreatePayload) : Product :=
  { title := payload.title, slug := (payload.slug.getD ""),
    description := payload.description, brand := payload.brand,
    category := payload.category, mainAttributeId := payload.mainAttributeId,
    imageUrl := payload.imageUrl, price := payload.price,
    salePrice := payload.salePrice, offerStart := payload.offerStart,
    offerEnd := payload.offerEnd, currency := (payload.currency.getD "USD"),
    stock := payload.stock, variants := (payload.variants.getD []),
    isActive := (payload.isActive.getD true), totalStock := 0 }

/-- `toSave = { ...payload, mainAttributeId, variants: cleanedVariants }`. -/
def buildVariantProduct (payload : CreatePayload) (mainId : String)
    (cleaned : List Variant) : Product :=
  { productOfPayload payload with mainAttributeId := some mainId, variants := cleaned }

/-- Slug normalization at the top of `create`: `if (payload.slug)` — the
empty string is falsy and is left alone. -/
def normalizePayloadSlug (payload : CreatePayload) : CreatePayload :=
  match payload.slug with
  | none => payload
  | some s => if s = "" then payload else { payload with slug := some (normalizeSlug s) }

/-- The simple-product path of `create` (lines 162-171).  A failure thrown
by `Product.create` is caught by the outer handler and reported as a 500
(`.internal`); unique-slug conflicts are not modelled. -/
def simpleCreate (payload : CreatePayload) : Except CreateErr Product :=
  match payload.price with
  | none => .error .simpleNeedsPrice
  | some _ =>
    match payload.stock with
    | none => .error .simpleNeedsStock
    | some _ =>
      match mongooseSave (productOfPayload payload) with
      | .ok prod => .ok prod
      | .error e => .error (.internal e)

/-- The variant path of `create` (lines 172-269), after slug/category
normalization, given the non-empty variants array. -/
def variantCreatePath (catalog : List AttributeRec) (payload : CreatePayload)
    (variants : List Variant) : Except CreateErr Product :=
  if ¬ variants.all (fun v => v.price.isSome && v.stock.isSome && decide (v.values.length > 0))
  then .error .variantShape
  else
    match checkVariantsShape variants with
    | .error e => .error e
    | .ok _ =>
      let allAttrIds := distinctAttrIds variants
      let attrs := attrsFind catalog allAttrIds
      let foundIds := attrs.map (fun a => a._id)
      let missing := allAttrIds.filter (fun id => ¬ id ∈ foundIds)
      if missing.length > 0 then .error (.unknownAttributeIds missing)
      else
        match checkValueIds (valuesByAttr attrs) variants with
        | .error e => .error e
        | .ok _ =>
          match resolveMainAttribute allAttrIds payload.mainAttributeId with
          | .error e => .error e
          | .ok mainId =>
            match checkVariantsHaveMain variants mainId with
            | .error e => .error e
            | .ok _ =>
              match mongooseSave (buildVariantProduct payload mainId
                  (cleanVariants variants)) with
              | .ok prod => .ok prod
              | .error e => .error (.internal e)

/-- `AdminProductController.create`: slug normalization, then the simple
path when `variants` is absent or empty, else the variant path. -/
def adminCreate (catalog : List AttributeRec) (payload0 : CreatePayload) :
    Except CreateErr Product :=
  let payload := normalizePayloadSlug payload0
  match payload.variants with
  | none => simpleCreate payload
  | some variants =>
    if variants.length = 0 then simpleCreate payload
    else variantCreatePath catalog payload variants

/-! ## `AdminProductController.bulkDelete` (`part_000`, lines 413-438) -/

/-- `new ObjectId(hex)` canonicalizes to lower case. -/
def lowerHex (s : String) : String := ⟨s.data.map Char.toLower⟩

structure BulkDeleteOk where
  requested : List String
  deletedCount : Nat
  deriving Repr, DecidableEq

/-- `bulkDelete`: reject an absent/empty `ids` array, filter malformed ids,
reject when none survive, else `deleteMany({_id: {$in: objectIds}})` and
report the well-formed ids with the number of documents actually removed.
The store is the list of existing document ids (canonical lower-case hex,
unique). -/
def bulkDelete (store : List String) (ids : Option (List String)) :
    Except String BulkDeleteOk :=
  match ids with
  | none => .error "Body must include non-empty ids array of ObjectId strings"
  | some l =>
    if l.length = 0 then .error "Body must include non-empty ids array of ObjectId strings"
    else
      let validIds := l.filter (fun id => isHex24 id)
      if validIds.length = 0 then .error "No valid 24-hex ids provided"
      else
        let objectIds := validIds.map lowerHex
        .ok { requested := validIds,
              deletedCount := (store.filter (fun docId => docId ∈ objectIds)).length }

/-! ## `AdminProductController.getOne` resolution projection
(`part_000`, lines 280-346) -/

structure ResolvedAttribute where
  _id : String
  name : Option String
  code : Option String
  type : Option String
  isActive : Option Bool
  deriving Repr, DecidableEq

structure ResolvedValue where
  _id : String
  label : Option String
  value : Option String
  meta : Option String
  deriving Repr, DecidableEq

structure ResolvedPair where
  «attribute» : ResolvedAttribute
  values : List ResolvedValue
  stock : Option Int
  imageUrl : Option String
  deriving Repr, DecidableEq

structure ResolvedVariant where
  sku : Option String
  price : Option ℚ
  salePrice : Option ℚ
  stock : Option Int
  imageUrl : Option String
  barcode : Option String
  effectivePrice : Option ℚ
  discountPercent : Int
  attributesResolved : List ResolvedPair
  deriving Repr, DecidableEq

/-- `attrById.get(id)` — the map is keyed by the unique `_id`, so the first
match is the map entry. -/
def attrLookup (attributes : List AttributeRec) (id : String) : Option AttributeRec :=
  attributes.find? (fun a => a._id = id)

/-- `valByAttrId.get(attributeId)?.get(vid)` inner map. -/
def valueLookup (a : AttributeRec) (vid : String) : Option AttrValue :=
  a.values.find? (fun v => v._id = vid)

/-- `valByAttrId.get(pair.attributeId)?.get(vid) ?? {_id: vid, label: null, value: null, meta: null}`:
one resolved value record or an all-null placeholder. -/
def resolveValueRecord (attributes : List AttributeRec) (attributeId vid : String) :
    ResolvedValue :=
  match attrLookup attributes attributeId with
  | some a =>
    match valueLookup a vid with
    | some v => { _id := v._id, label := some v.label, value := v.value, meta := v.meta }
    | none => { _id := vid, label := none, value := none, meta := none }
  | none => { _id := vid, label := none, value := none, meta := none }

/-- Expansion of one pair (lines 307-320): attribute metadata or an
all-null placeholder; each referenced value id (coerced to a list) resolved
to a full value record or an all-null placeholder — never dropped. -/
def resolvePair (attributes : List AttributeRec) (pair : VariantPair) : ResolvedPair :=
  let attrInfo : ResolvedAttribute :=
    match attrLookup attributes pair.attributeId with
    | some a => { _id := a._id, name := some a.name, code := some a.code,
                  type := some a.type, isActive := some a.isActive }
    | none => { _id := pair.attributeId, name := none, code := none, type := none,
                isActive := none }
  let valueIds := toArray pair.attributesValueId
  let values := valueIds.map (resolveValueRecord attributes pair.attributeId)
  { «attribute» := attrInfo, values := values, stock := pair.stock, imageUrl := pair.imageUrl }

/-- One resolved variant (lines 322-333).  The document comes from a
`.lean()` query, which carries no virtuals, so `v.effectivePrice ?? null`
is `null` and `v.discountPercent ?? 0` is `0`. -/
def resolveVariant (attributes : List AttributeRec) (v : Variant) : ResolvedVariant :=
  { sku := v.sku, price := v.price, salePrice := v.salePrice, stock := v.stock,
    imageUrl := v.imageUrl, barcode := v.barcode,
    effectivePrice := none, discountPercent := 0,
    attributesResolved := v.values.map (resolvePair attributes) }

/-- The whole projection: collect the distinct referenced attribute ids,
batch-fetch the matching catalog records, resolve every variant. -/
def getOneResolve (catalog : List AttributeRec) (p : Product) : List ResolvedVariant :=
  let attrIds := insertionDedup
    (p.variants.flatMap (fun v => v.values.map (fun q => q.attributeId)))
  let attributes := attrsFind catalog attrIds
  p.variants.map (resolveVariant attributes)

/-! ## `AdminProductController.updateById` (`part_000`, lines 348-411) -/

/-- The request body of `updateById`.  `none` everywhere means the field is
absent (`typeof body[k] === "undefined"`); `category = some none` and
`variants = some none` model an explicit `null` / non-array value.
(Explicit `null` on the scalar fields is not modelled; no claim depends on
it.) -/
structure UpdateBody where
  id : Option String := none
  mainBuild : Bool := false
  title : Option String := none
  description : Option String := none
  brand : Option String := none
  currency : Option String := none
  price : Option ℚ := none
  salePrice : Option ℚ := none
  offerStart : Option Int := none
  offerEnd : Option Int := none
  stock : Option Int := none
  isActive : Option Bool := none
  imageUrl : Option String := none
  mainAttributeId : Option String := none
  slug : Option String := none
  category : Option (Option String) := none
  variants : Option (Option (List Variant)) := none
  deriving Repr, DecidableEq

inductive UpdateResp where
  | badRequest (msg : String)
  | notFound
  | internalError (msg : String)
  | ok (p : Product)
  deriving Repr, DecidableEq

/-- The `forEach` over the scalar field whitelist (lines 363-378). -/
def applyScalarFields (p : Product) (b : UpdateBody) : Product :=
  { p with
    title := b.title.getD p.title,
    description := match b.description with | none => p.description | some d => some d,
    brand := match b.brand with | none => p.brand | some d => some d,
    currency := b.currency.getD p.currency,
    price := match b.price with | none => p.price | some x => some x,
    salePrice := match b.salePrice with | none => p.salePrice | some x => some x,
    offerStart := match b.offerStart with | none => p.offerStart | some x => some x,
    offerEnd := match b.offerEnd with | none => p.offerEnd | some x => some x,
    stock := match b.stock with | none => p.stock | some x => some x,
    isActive := b.isActive.getD p.isActive,
    imageUrl := b.imageUrl.getD p.imageUrl,
    mainAttributeId :=
      match b.mainAttributeId with | none => p.mainAttributeId | some m => some m }

/-- Lines 379-385: a supplied slug is normalized when its trim is truthy. -/
def applyBodySlug (p : Product) (b : UpdateBody) : Product :=
  match b.slug with
  | none => p
  | some s => if jsTrimChars s.data ≠ [] then { p with slug := normalizeSlug s } else p

/-- Lines 386-394: category may be set (valid ObjectId), cleared (`null`),
or rejected. -/
def applyCategory (p : Product) (b : UpdateBody) : Except UpdateResp Product :=
  match b.category with
  | none => .ok p
  | some (some s) =>
    if s ≠ "" ∧ isValidObjectIdStr s = true then .ok { p with category := some s }
    else .error (.badRequest "category must be a 24-hex ObjectId or null")
  | some none => .ok { p with category := none }

/-- `await product.save()` with the catch of lines 404-410: a thrown
validation error has no Mongo code 11000, so it is reported as the generic
500; store-level uniqueness (the one source of 11000/409) is not modelled. -/
def saveUpdated (p : Product) : UpdateResp :=
  match mongooseSave p with
  | .ok q => .ok q
  | .error _ => .internalError "Failed to update product"

def updateById (findById : String → Option Product) (body : UpdateBody) : UpdateResp :=
  match body.id with
  | none => .badRequest "Valid id (24-hex ObjectId) is required in the request body"
  | some id =>
    if ¬ isValidObjectIdStr id then
      .badRequest "Valid id (24-hex ObjectId) is required in the request body"
    else
      match findById id with
      | none => .notFound
      | some product =>
        if body.mainBuild then .badRequest "mainBuild is not supported."
        else
          let product := applyBodySlug (applyScalarFields product body) body
          match applyCategory product body with
          | .error r => r
          | .ok product =>
            match body.variants with
            | some none => .badRequest "variants must be an array when provided"
            | some (some vs) => saveUpdated { product with variants := vs }
            | none => saveUpdated product

/-! ## Concrete documents used to witness the theorems -/

def attrA : String := "aaaaaaaaaaaaaaaaaaaaaaaa"

def valB : String := "bbbbbbbbbbbbbbbbbbbbbbbb"

def valC : String := "cccccccccccccccccccccccc"

def exSimple : Product :=
  { title := "Tee", slug := "tee", imageUrl := "http://ex.com/a.png",
    price := some 20, stock := some 5 }

def exSimpleSaved : Product := { exSimple with totalStock := 5 }

def exVariant1 : Variant :=
  { price := some 10, stock := some 3,
    values := [{ attributeId := attrA, attributesValueId := .single valB, stock := some 3 }] }

def exVariant2 : Variant :=
  { price := some 12, stock := some 4,
    values := [{ attributeId := attrA, attributesValueId := .single valC, stock := some 4 }] }

def exVarProd : Product :=
  { title := "Sock", slug := "sock", imageUrl := "http://ex.com/s.png",
    mainAttributeId := some attrA, variants := [exVariant1, exVariant2] }

def exVarProdSaved : Product := { exVarProd with totalStock := 7, stock := none }

/-- A one-attribute catalog: `Color` with values `valB`, `valC`. -/
def exCatalog : List AttributeRec :=
  [{ _id := attrA, name := "Color", code := "color", type := "color",
     values := [{ _id := valB, label := "Blue" }, { _id := valC, label := "Cyan" }] }]

/-- A create request whose variants use exactly one distinct attribute id. -/
def exCreatePayload : CreatePayload :=
  { title := "Sock", slug := some "sock", imageUrl := "http://ex.com/s.png",
    variants := some [exVariant1, exVariant2] }

def badV1 : String := "dddddddddddddddddddddddd"

def badV2 : String := "eeeeeeeeeeeeeeeeeeeeeeee"

/-- Two pairs on the same attribute, each referencing a value id that is not
on the attribute. -/
def badVariant5 : Variant :=
  { price := some 10, stock := some 1,
    values := [{ attributeId := attrA, attributesValueId := IdOrIds.single badV1,
                 stock := some 1 },
               { attributeId := attrA, attributesValueId := IdOrIds.single badV2,
                 stock := some 1 }] }

def payload5 : CreatePayload :=
  { title := "X", slug := some "x", imageUrl := "http://ex.com/x.png",
    variants := some [badVariant5] }

/-- `price=20, salePrice=15, offerStart=0 (past), offerEnd=2000 (future)`,
read at `now = 1000`. -/
def exOfferProduct : Product :=
  { title := "P", slug := "p", imageUrl := "http://ex.com/p.png",
    price := some 20, salePrice := some 15,
    offerStart := some 0, offerEnd := some 2000, stock := some 1 }

/-- The same product but with `offerEnd = 500`, already past at `now = 1000`. -/
def exExpiredOffer : Product := { exOfferProduct with offerEnd := some 500 }

def docA : String := "111111111111111111111111"

def docB : String := "222222222222222222222222"

def updId : String := "123412341234123412341234"

/-- A one-document store holding the simple product under `updId`. -/
def exFind : String → Option Product := fun i => if i = updId then some exSimple else none

/-- An update that replaces `variants` with a list violating the variant
rules: the target product has no `mainAttributeId`. -/
def exUpdateBadBody : UpdateBody := { id := some updId, variants := some (some [exVariant1]) }

/-- A pair whose attribute id and value id are absent from the catalog. -/
def danglingPair : VariantPair :=
  { attributeId := badV1, attributesValueId := IdOrIds.multiple [badV2], stock := some 0 }

/-! ## Helper lemmas -/

theorem foldl_add_stock (l : List Variant) (a : Int) :
    l.foldl (fun s v => s + v.stock.getD 0) a = a + (l.map (fun v => v.stock.getD 0)).sum := by
  induction l generalizing a with
  | nil => simp
  | cons v vs ih => simp [ih, add_assoc]

theorem variantSchemaValid_stock_isSome (v : Variant) (h : variantSchemaValid v = true) :
    v.stock.isSome := by
  cases hs : v.stock with
  | none => simp [variantSchemaValid, hs] at h
  | some s => simp

theorem mongooseSave_ok (p q : Product) (h : mongooseSave p = Except.ok q) :
    productPreValidate p = Except.ok q ∧ productSchemaValid q = true := by
  unfold mongooseSave at h
  split at h
  · exact absurd h (by simp)
  · rename_i q0 hpv
    split at h
    · rename_i hvalid
      injection h with h2
      subst h2
      exact ⟨hpv, hvalid⟩
    · exact absurd h (by simp)

/-- Shape of the `pre("validate")` result in the variant-bearing branch. -/
theorem productPreValidate_variants (p q : Product) (h : productPreValidate p = Except.ok q)
    (hv : p.variants ≠ []) :
    q = { p with totalStock := sumVariantStocks p.variants, stock := none } ∧
    ∃ m, p.mainAttributeId = some m ∧ m ≠ "" ∧
      p.variants.all (fun v => v.values.any (fun q => q.attributeId = m)) = true := by
  unfold productPreValidate at h
  have hlen : p.variants.length > 0 := List.length_pos.mpr hv
  rw [if_pos hlen] at h
  split at h
  · exact absurd h (by simp)
  · rename_i m hm
    split at h
    · exact absurd h (by simp)
    · rename_i hme
      split at h
      · rename_i hall
        injection h with h2
        exact ⟨h2.symm, m, hm, hme, hall⟩
      · exact absurd h (by simp)

/-- Shape of the `pre("validate")` result in the simple branch. -/
theorem productPreValidate_simple (p q : Product) (h : productPreValidate p = Except.ok q)
    (hv : p.variants = []) :
    ∃ st, p.stock = some st ∧ q = { p with totalStock := st } := by
  unfold productPreValidate at h
  rw [hv] at h
  simp only [List.length_nil, gt_iff_lt, lt_irrefl, if_false] at h
  split at h
  · exact absurd h (by simp)
  · split at h
    · exact absurd h (by simp)
    · rename_i st hs
      refine ⟨st, hs, ?_⟩
      injection h with h2
      rw [← h2]
      by_cases h0 : st = 0
      · subst h0; simp [hv]
      · simp [hv, h0]

theorem productSchemaValid_variants_all (p : Product) (h : productSchemaValid p = true) :
    ∀ v ∈ p.variants, variantSchemaValid v = true := by
  intro v hv
  simp only [productSchemaValid, Bool.and_eq_true, List.all_eq_true] at h
  exact h.2 v hv

/-- C1: for every product accepted by a successful create or update (i.e. a
document that passes the Mongoose validate-then-save sequence), the stored
`totalStock` is correct for its mode: a simple product (empty `variants`)
stores `totalStock = stock`, and a variant-bearing product stores
`totalStock = Σ variants[].stock` with the top-level `stock` cleared. -/
theorem stored_totalStock_correct (p q : Product) (h : mongooseSave p = Except.ok q) :
    (q.variants = [] → ∃ s, q.stock = some s ∧ q.totalStock = s) ∧
    (q.variants ≠ [] →
      q.stock = none ∧
      q.totalStock = (q.variants.map (fun v => v.stock.getD 0)).sum ∧
      ∀ v ∈ q.variants, v.stock.isSome) := by
  obtain ⟨hpv, hvalid⟩ := mongooseSave_ok p q h
  constructor
  · intro hempty
    by_cases hpe : p.variants = []
    · obtain ⟨st, hst, hq⟩ := productPreValidate_simple p q hpv hpe
      subst hq
      exact ⟨st, hst, rfl⟩
    · obtain ⟨hq, -⟩ := productPreValidate_variants p q hpv hpe
      subst hq
      exact absurd hempty hpe
  · intro hne
    by_cases hpe : p.variants = []
    · obtain ⟨st, hst, hq⟩ := productPreValidate_simple p q hpv hpe
      subst hq
      exact absurd hpe hne
    · obtain ⟨hq, -⟩ := productPreValidate_variants p q hpv hpe
      subst hq
      refine ⟨rfl, ?_, ?_⟩
      · show sumVariantStocks p.variants = _
        unfold sumVariantStocks
        rw [foldl_add_stock]
        simp
      · intro v hv
        exact variantSchemaValid_stock_isSome v
          (productSchemaValid_variants_all _ hvalid v hv)

theorem stored_totalStock_correct_witness :
    (∃ s, exSimpleSaved.stock = some s ∧ exSimpleSaved.totalStock = s) ∧
    (exVarProdSaved.stock = none ∧
      exVarProdSaved.totalStock = (exVarProdSaved.variants.map (fun v => v.stock.getD 0)).sum) := by
  constructor
  · exact (stored_totalStock_correct exSimple exSimpleSaved (by rfl)).1 (by decide)
  · have h := (stored_totalStock_correct exVarProd exVarProdSaved (by rfl)).2 (by decide)
    exact ⟨h.1, h.2.1⟩

/-- C2: no product is ever persisted (create or update both go through the
validate-then-save sequence) with non-empty `variants` and an absent
`mainAttributeId`, nor with some variant lacking a pair whose `attributeId`
equals `mainAttributeId`. -/
theorem persisted_variant_product_has_main (p q : Product)
    (h : mongooseSave p = Except.ok q) (hne : q.variants ≠ []) :
    ∃ m, q.mainAttributeId = some m ∧ m ≠ "" ∧
      ∀ v ∈ q.variants, ∃ pr ∈ v.values, pr.attributeId = m := by
  obtain ⟨hpv, -⟩ := mongooseSave_ok p q h
  by_cases hpe : p.variants = []
  · obtain ⟨st, hst, hq⟩ := productPreValidate_simple p q hpv hpe
    subst hq
    exact absurd hpe hne
  · obtain ⟨hq, m, hm, hme, hall⟩ := productPreValidate_variants p q hpv hpe
    subst hq
    refine ⟨m, hm, hme, ?_⟩
    intro v hv
    simp only [List.all_eq_true, List.any_eq_true, decide_eq_true_eq] at hall
    exact hall v hv

theorem persisted_variant_product_has_main_witness :
    ∃ m, exVarProdSaved.mainAttributeId = some m ∧ m ≠ "" ∧
      ∀ v ∈ exVarProdSaved.variants, ∃ pr ∈ v.values, pr.attributeId = m :=
  persisted_variant_product_has_main exVarProd exVarProdSaved (by rfl) (by decide)

/-! ## Slug normalization: structural lemmas for idempotence (C9) -/

theorem squeezeDashes_head? (l : List Char) : (squeezeDashes l).head? = l.head? := by
  induction l using squeezeDashes.induct with
  | case1 => rfl
  | case2 c => rfl
  | case3 a b rest h ih =>
    simp only [squeezeDashes, if_pos h]
    rw [ih]
    simp [h.1, h.2]
  | case4 a b rest h ih => simp [squeezeDashes, if_neg h]

theorem squeezeDashes_subset (l : List Char) : ∀ c ∈ squeezeDashes l, c ∈ l := by
  induction l using squeezeDashes.induct with
  | case1 => simp [squeezeDashes]
  | case2 c => simp [squeezeDashes]
  | case3 a b rest h ih =>
    intro c hc
    simp only [squeezeDashes, if_pos h] at hc
    exact List.mem_cons_of_mem a (ih c hc)
  | case4 a b rest h ih =>
    intro c hc
    simp only [squeezeDashes, if_neg h] at hc
    rcases List.mem_cons.mp hc with rfl | hc
    · exact List.mem_cons_self _ _
    · exact List.mem_cons_of_mem a (ih c hc)

theorem squeezeDashes_chain (l : List Char) : List.Chain' slugR (squeezeDashes l) := by
  induction l using squeezeDashes.induct with
  | case1 => simp [squeezeDashes]
  | case2 c => simp [squeezeDashes]
  | case3 a b rest h ih => simpa [squeezeDashes, if_pos h] using ih
  | case4 a b rest h ih =>
    simp only [squeezeDashes, if_neg h]
    rw [List.chain'_cons']
    refine ⟨?_, ih⟩
    intro y hy
    rw [squeezeDashes_head? (b :: rest)] at hy
    simp only [List.head?_cons, Option.mem_def, Option.some.injEq] at hy
    subst hy
    exact h

theorem squeezeDashes_eq_self (l : List Char) (h : List.Chain' slugR l) :
    squeezeDashes l = l := by
  induction l using squeezeDashes.induct with
  | case1 => rfl
  | case2 c => rfl
  | case3 a b rest hc ih =>
    exfalso
    rw [List.chain'_cons] at h
    exact h.1 hc
  | case4 a b rest hc ih =>
    rw [List.chain'_cons] at h
    simp only [squeezeDashes, if_neg hc]
    rw [ih h.2]

theorem collapseRuns_chars (l : List Char) :
    ∀ c ∈ collapseRuns l, isLowerAlnum c = true ∨ c = '-' := by
  intro c hc
  have hm := squeezeDashes_subset _ c hc
  rw [List.mem_map] at hm
  obtain ⟨d, -, hd⟩ := hm
  by_cases hda : isLowerAlnum d = true
  · left
    rw [← hd]
    simp [hda]
  · right
    rw [← hd]
    simp [hda]

theorem collapseRuns_chain (l : List Char) : List.Chain' slugR (collapseRuns l) :=
  squeezeDashes_chain _

theorem collapseRuns_eq_self (l : List Char) (hch : List.Chain' slugR l)
    (hc : ∀ c ∈ l, isLowerAlnum c = true ∨ c = '-') : collapseRuns l = l := by
  unfold collapseRuns
  have hmap : l.map (fun c => if isLowerAlnum c then c else '-') = l := by
    have : ∀ c ∈ l, (if isLowerAlnum c then c else '-') = c := by
      intro c hcm
      rcases hc c hcm with h1 | rfl
      · simp [h1]
      · simp
    rw [List.map_congr_left this]
    exact List.map_id' l
  rw [hmap]
  exact squeezeDashes_eq_self l hch

theorem dropLeadingDash_subset (l : List Char) : ∀ c ∈ dropLeadingDash l, c ∈ l := by
  intro c hc
  cases l with
  | nil => simp [dropLeadingDash] at hc
  | cons a rest =>
    simp only [dropLeadingDash] at hc
    by_cases ha : a = '-'
    · rw [if_pos ha] at hc
      exact List.mem_cons_of_mem a hc
    · rwa [if_neg ha] at hc

theorem dropLeadingDash_chain (l : List Char) (h : List.Chain' slugR l) :
    List.Chain' slugR (dropLeadingDash l) := by
  cases l with
  | nil => simp [dropLeadingDash]
  | cons a rest =>
    simp only [dropLeadingDash]
    by_cases ha : a = '-'
    · rw [if_pos ha]
      exact (List.chain'_cons'.mp h).2
    · rwa [if_neg ha]

theorem dropLeadingDash_head (l : List Char) (h : List.Chain' slugR l) :
    ∀ c, (dropLeadingDash l).head? = some c → c ≠ '-' := by
  intro c hc
  cases l with
  | nil => simp [dropLeadingDash] at hc
  | cons a rest =>
    simp only [dropLeadingDash] at hc
    by_cases ha : a = '-'
    · rw [if_pos ha] at hc
      rw [List.chain'_cons'] at h
      intro hcd
      exact h.1 c (Option.mem_def.mpr hc) ⟨ha, hcd⟩
    · rw [if_neg ha] at hc
      simp only [List.head?_cons, Option.some.injEq] at hc
      subst hc
      exact ha

theorem dropLeadingDash_eq_self (l : List Char)
    (h : ∀ c, l.head? = some c → c ≠ '-') : dropLeadingDash l = l := by
  cases l with
  | nil => rfl
  | cons a rest =>
    simp only [dropLeadingDash]
    exact if_neg (h a rfl)

theorem dropLeadingDash_getLast? (l : List Char) (c : Char)
    (h : (dropLeadingDash l).getLast? = some c) : l.getLast? = some c := by
  cases l with
  | nil => simp [dropLeadingDash] at h
  | cons a rest =>
    simp only [dropLeadingDash] at h
    by_cases ha : a = '-'
    · rw [if_pos ha] at h
      cases rest with
      | nil => simp at h
      | cons b bs => rwa [List.getLast?_cons_cons]
    · rwa [if_neg ha] at h

theorem chain_slugR_reverse (l : List Char) (h : List.Chain' slugR l) :
    List.Chain' slugR l.reverse := by
  rw [List.chain'_reverse]
  exact h.imp fun a b hab hba => hab ⟨hba.2, hba.1⟩

theorem normalizeSlugChars_good (l : List Char) : GoodSlug (normalizeSlugChars l) := by
  unfold normalizeSlugChars stripEndDashes
  set m := collapseRuns (jsTrimChars (l.map Char.toLower)) with hm
  have hch : List.Chain' slugR m := collapseRuns_chain _
  have hcs : ∀ c ∈ m, isLowerAlnum c = true ∨ c = '-' := collapseRuns_chars _
  have hch1 : List.Chain' slugR (dropLeadingDash m) := dropLeadingDash_chain _ hch
  have hh1 : ∀ c, (dropLeadingDash m).head? = some c → c ≠ '-' :=
    dropLeadingDash_head _ hch
  have hchr : List.Chain' slugR (dropLeadingDash m).reverse := chain_slugR_reverse _ hch1
  refine ⟨?_, ?_, ?_, ?_⟩
  · intro c hc
    rw [List.mem_reverse] at hc
    have := dropLeadingDash_subset _ c hc
    rw [List.mem_reverse] at this
    exact hcs c (dropLeadingDash_subset _ c this)
  · exact chain_slugR_reverse _ (dropLeadingDash_chain _ hchr)
  · intro c hc
    rw [List.head?_reverse] at hc
    have := dropLeadingDash_getLast? _ _ hc
    rw [List.getLast?_reverse] at this
    exact hh1 c this
  · intro c hc
    rw [List.getLast?_reverse] at hc
    exact dropLeadingDash_head _ hchr c hc

theorem toLower_slugChar (c : Char) (h : isLowerAlnum c = true ∨ c = '-') :
    c.toLower = c := by
  have hn : 97 ≤ c.toNat ∧ c.toNat ≤ 122 ∨ 48 ≤ c.toNat ∧ c.toNat ≤ 57 ∨ c.toNat = 45 := by
    rcases h with h | rfl
    · simp only [isLowerAlnum, Bool.or_eq_true, Bool.and_eq_true, decide_eq_true_eq] at h
      tauto
    · right; right; rfl
  unfold Char.toLower
  rw [if_neg (by omega)]

theorem slugChar_not_space (c : Char) (h : isLowerAlnum c = true ∨ c = '-') :
    isRegexSpace c = false := by
  have hn : 97 ≤ c.toNat ∧ c.toNat ≤ 122 ∨ 48 ≤ c.toNat ∧ c.toNat ≤ 57 ∨ c.toNat = 45 := by
    rcases h with h | rfl
    · simp only [isLowerAlnum, Bool.or_eq_true, Bool.and_eq_true, decide_eq_true_eq] at h
      tauto
    · right; right; rfl
  by_contra hs
  rw [Bool.not_eq_false] at hs
  have hsp : c.toNat = 32 ∨ c.toNat = 9 ∨ c.toNat = 10 ∨ c.toNat = 13 ∨ c.toNat = 11 ∨
      c.toNat = 12 := by
    simp only [isRegexSpace, Bool.or_eq_true, decide_eq_true_eq] at hs
    rcases hs with ((((h1 | h1) | h1) | h1) | h1) | h1 <;> rw [h1] <;> decide
  omega

theorem dropWhile_eq_self_of_none (p : Char → Bool) (l : List Char)
    (h : ∀ c ∈ l, p c = false) : l.dropWhile p = l := by
  match l with
  | [] => rfl
  | a :: as =>
    rw [List.dropWhile_cons, h a (List.mem_cons_self _ _)]
    simp

theorem goodSlug_fixed (l : List Char) (h : GoodSlug l) : normalizeSlugChars l = l := by
  obtain ⟨hcs, hch, hh, hl⟩ := h
  have h1 : l.map Char.toLower = l := by
    have : ∀ c ∈ l, c.toLower = c := fun c hc => toLower_slugChar c (hcs c hc)
    rw [List.map_congr_left this]
    exact List.map_id' l
  have h2 : jsTrimChars l = l := by
    unfold jsTrimChars
    rw [dropWhile_eq_self_of_none _ l (fun c hc => slugChar_not_space c (hcs c hc))]
    rw [dropWhile_eq_self_of_none _ l.reverse
      (fun c hc => slugChar_not_space c (hcs c (List.mem_reverse.mp hc)))]
    exact List.reverse_reverse l
  have h3 : collapseRuns l = l := collapseRuns_eq_self l hch hcs
  have h4 : stripEndDashes l = l := by
    unfold stripEndDashes
    rw [dropLeadingDash_eq_self l hh]
    rw [dropLeadingDash_eq_self l.reverse (fun c hc => hl c (by rwa [List.head?_reverse] at hc))]
    exact List.reverse_reverse l
  unfold normalizeSlugChars
  rw [h1, h2, h3, h4]

/-! ## Create pipeline lemmas (C3, C4, C5) -/

theorem np_variants (p : CreatePayload) :
    (normalizePayloadSlug p).variants = p.variants := by
  unfold normalizePayloadSlug
  cases p.slug with
  | none => rfl
  | some s =>
    by_cases hs : s = ""
    · simp [hs]
    · simp [hs]

theorem mongooseSave_preserves (p q : Product) (h : mongooseSave p = Except.ok q) :
    q.mainAttributeId = p.mainAttributeId ∧ q.variants = p.variants := by
  obtain ⟨hpv, -⟩ := mongooseSave_ok p q h
  by_cases hpe : p.variants = []
  · obtain ⟨st, -, hq⟩ := productPreValidate_simple p q hpv hpe
    subst hq
    exact ⟨rfl, rfl⟩
  · obtain ⟨hq, -⟩ := productPreValidate_variants p q hpv hpe
    subst hq
    exact ⟨rfl, rfl⟩

theorem distinctAttrIds_nil : distinctAttrIds [] = [] := rfl

/-- C3: for every create request whose variants use exactly one distinct
`attributeId` across all pairs, main-attribute resolution succeeds without
caller input (the resolver returns that id whatever the caller field holds),
and the `mainAttributeId` stored on the created product equals that single
distinct id. -/
theorem single_attribute_main_inference (catalog : List AttributeRec)
    (payload : CreatePayload) (vs : List Variant) (a : String) (prod : Product)
    (hv : payload.variants = some vs) (hd : distinctAttrIds vs = [a])
    (hc : adminCreate catalog payload = Except.ok prod) :
    prod.mainAttributeId = some a ∧
    ∀ m, resolveMainAttribute [a] m = Except.ok a := by
  refine ⟨?_, fun m => rfl⟩
  have hv2 : (normalizePayloadSlug payload).variants = some vs := by
    rw [np_variants]; exact hv
  simp only [adminCreate] at hc
  split at hc
  · rename_i hnone
    rw [hv2] at hnone
    exact absurd hnone (by simp)
  · rename_i variants hsome
    rw [hv2] at hsome
    injection hsome with hveq
    subst hveq
    have hne : ¬ vs.length = 0 := by
      intro h0
      rw [List.length_eq_zero] at h0
      subst h0
      rw [distinctAttrIds_nil] at hd
      exact absurd hd (by simp)
    rw [if_neg hne] at hc
    simp only [variantCreatePath] at hc
    rw [hd] at hc
    split at hc
    · exact absurd hc (by simp)
    · split at hc
      · exact absurd hc (by simp)
      · split at hc
        · exact absurd hc (by simp)
        · split at hc
          · exact absurd hc (by simp)
          · -- the resolver on the singleton id list returns that id
            split at hc
            · exact absurd hc (by simp)
            · rename_i mainId hres
              have h0 : resolveMainAttribute [a]
                  ((normalizePayloadSlug payload).mainAttributeId) = Except.ok a := rfl
              rw [h0] at hres
              injection hres with hma
              subst hma
              split at hc
              · exact absurd hc (by simp)
              · split at hc
                · rename_i prod0 hsave
                  injection hc with hpq
                  subst hpq
                  rw [(mongooseSave_preserves _ _ hsave).1]
                  rfl
                · exact absurd hc (by simp)

theorem single_attribute_main_inference_witness :
    exVarProdSaved.mainAttributeId = some attrA ∧
    ∀ m, resolveMainAttribute [attrA] m = Except.ok attrA :=
  single_attribute_main_inference exCatalog exCreatePayload [exVariant1, exVariant2]
    attrA exVarProdSaved rfl (by decide) (by decide)

theorem np_main_comm (p : CreatePayload) (m : Option String) :
    normalizePayloadSlug { p with mainAttributeId := m } =
      { normalizePayloadSlug p with mainAttributeId := m } := by
  unfold normalizePayloadSlug
  cases hs : p.slug with
  | none => simp [hs]
  | some s =>
    by_cases hse : s = ""
    · simp [hs, hse]
    · simp [hs, hse]

theorem variantCreatePath_main_irrelevant (catalog : List AttributeRec)
    (p : CreatePayload) (variants : List Variant) (a : String) (m : Option String)
    (hd : distinctAttrIds variants = [a]) :
    variantCreatePath catalog { p with mainAttributeId := m } variants =
      variantCreatePath catalog p variants := by
  simp only [variantCreatePath]
  rw [hd]
  rfl

/-- C4 (counterexample): in the single-distinct-attribute case a present but
malformed caller-supplied `mainAttributeId` is NOT reported as a validation
failure — the create succeeds and stores the inferred id. -/
theorem caller_main_not_validated_counterexample :
    adminCreate exCatalog { exCreatePayload with mainAttributeId := some "not-valid" }
      = Except.ok exVarProdSaved ∧
    isHex24 "not-valid" = false ∧
    distinctAttrIds [exVariant1, exVariant2] = [attrA] ∧
    exVarProdSaved.mainAttributeId = some attrA :=
  ⟨by decide, by decide, by decide, by decide⟩

/-- C4 (amended): when exactly one distinct attribute id is used across all
variants of a create request, the caller-supplied `mainAttributeId` is
ignored entirely — it is never validated, and the outcome of the create is
identical whatever the caller supplies. -/
theorem single_attribute_caller_main_ignored (catalog : List AttributeRec)
    (payload : CreatePayload) (vs : List Variant) (a : String) (m1 m2 : Option String)
    (hv : payload.variants = some vs) (hd : distinctAttrIds vs = [a]) :
    adminCreate catalog { payload with mainAttributeId := m1 }
      = adminCreate catalog { payload with mainAttributeId := m2 } := by
  have hne : ¬ vs.length = 0 := by
    intro h0
    rw [List.length_eq_zero] at h0
    subst h0
    rw [distinctAttrIds_nil] at hd
    exact absurd hd (by simp)
  have key : ∀ m : Option String,
      adminCreate catalog { payload with mainAttributeId := m }
        = variantCreatePath catalog (normalizePayloadSlug payload) vs := by
    intro m
    simp only [adminCreate, np_main_comm]
    have hv2 : (normalizePayloadSlug payload).variants = some vs := by
      rw [np_variants]; exact hv
    simp only [hv2]
    rw [if_neg hne]
    exact variantCreatePath_main_irrelevant catalog (normalizePayloadSlug payload) vs a m hd
  rw [key m1, key m2]

theorem single_attribute_caller_main_ignored_witness :
    adminCreate exCatalog { exCreatePayload with mainAttributeId := some "not-valid" }
      = adminCreate exCatalog { exCreatePayload with mainAttributeId := none } :=
  single_attribute_caller_main_ignored exCatalog exCreatePayload
    [exVariant1, exVariant2] attrA (some "not-valid") none rfl (by decide)

theorem checkValueIdsPairs_error_shape (lookup : String → Option (List String))
    (pairs : List VariantPair) (aId : String) (bad : List String)
    (h : checkValueIdsPairs lookup pairs = .error (.valuesNotOnAttribute aId bad)) :
    ∃ pair ∈ pairs, pair.attributeId = aId ∧
      ∃ allowed, lookup aId = some allowed ∧
        bad = (toArray pair.attributesValueId).filter (fun vid => ¬ vid ∈ allowed) ∧
        bad ≠ [] := by
  induction pairs with
  | nil => simp [checkValueIdsPairs] at h
  | cons pair rest ih =>
    simp only [checkValueIdsPairs] at h
    split at h
    · exact absurd h (by simp)
    · rename_i allowed hlk
      split at h
      · rename_i hbad
        injection h with he
        injection he with h1 h2
        subst h1
        refine ⟨pair, List.mem_cons_self _ _, rfl, allowed, hlk, h2.symm, ?_⟩
        rw [← h2]
        exact List.ne_nil_of_length_pos hbad
      · obtain ⟨pr, hmem, hrest⟩ := ih h
        exact ⟨pr, List.mem_cons_of_mem _ hmem, hrest⟩

/-- C5 (counterexample): two pairs of the same variant both reference value
ids missing from attribute `attrA` (`badV1`, `badV2` are not among the
attribute values `valB`, `valC`), yet the failure lists only the first
pair's offending id — violations are not collected across pairs. -/
theorem value_violation_shortcircuit_counterexample :
    adminCreate exCatalog payload5
      = Except.error (CreateErr.valuesNotOnAttribute attrA [badV1]) ∧
    valuesByAttr (attrsFind exCatalog [attrA]) attrA = some [valB, valC] ∧
    ¬ badV2 ∈ [valB, valC] ∧ ¬ badV2 ∈ [badV1] :=
  ⟨by decide, by decide, by decide, by decide⟩

/-- C5 (amended): in validation step 5 the failure reports, for a single
offending pair, the complete list of that pair's referenced value ids that
are missing from the attribute; but the check stops at the first offending
pair, so violations from later pairs (even of the same attribute) are not
aggregated. -/
theorem value_violations_complete_per_pair (lookup : String → Option (List String))
    (variants : List Variant) (aId : String) (bad : List String)
    (h : checkValueIds lookup variants = .error (.valuesNotOnAttribute aId bad)) :
    ∃ v ∈ variants, ∃ pair ∈ v.values, pair.attributeId = aId ∧
      ∃ allowed, lookup aId = some allowed ∧
        bad = (toArray pair.attributesValueId).filter (fun vid => ¬ vid ∈ allowed) ∧
        bad ≠ [] := by
  induction variants with
  | nil => simp [checkValueIds] at h
  | cons v rest ih =>
    unfold checkValueIds at h
    split at h
    · rename_i e he
      injection h with he2
      subst he2
      obtain ⟨pair, hmem, hrest⟩ := checkValueIdsPairs_error_shape lookup v.values aId bad he
      exact ⟨v, List.mem_cons_self _ _, pair, hmem, hrest⟩
    · obtain ⟨v2, hm, hrest⟩ := ih h
      exact ⟨v2, List.mem_cons_of_mem _ hm, hrest⟩

/-! ## Bulk delete (C7) -/

/-- C7 (counterexample): a non-empty id list in which every id is malformed
does fail the batch (400 `No valid 24-hex ids provided`) instead of
reporting a `deletedCount`. -/
theorem bulk_delete_all_malformed_counterexample :
    bulkDelete [docA] (some ["bad-id"]) =
      Except.error "No valid 24-hex ids provided" := by decide

/-- C7 (amended): for every bulk-delete request with at least one
well-formed id, malformed ids are filtered out without failing the batch,
deletion is attempted for exactly the well-formed ids in one batch
operation, and the response reports those ids together with the number of
documents actually removed.  The claim's example — ids `[A, "bad-id", B]`
with only `A` existing — yields `requested = [A, B]`, `deletedCount = 1`.
(With no well-formed id at all the batch fails instead; see the
counterexample.) -/
theorem bulk_delete_filters_and_counts (store : List String) (ids : List String)
    (hv : ids.filter (fun id => isHex24 id) ≠ []) :
    (∃ r, bulkDelete store (some ids) = Except.ok r ∧
      r.requested = ids.filter (fun id => isHex24 id) ∧
      r.deletedCount = (store.filter (fun docId =>
        docId ∈ (ids.filter (fun id => isHex24 id)).map lowerHex)).length ∧
      r.deletedCount ≤ store.length) ∧
    bulkDelete [docA] (some [docA, "bad-id", docB]) =
      Except.ok { requested := [docA, docB], deletedCount := 1 } := by
  constructor
  · have hne : ¬ ids.length = 0 := by
      intro h0
      rw [List.length_eq_zero] at h0
      subst h0
      exact hv rfl
    have hlv : ¬ (ids.filter (fun id => isHex24 id)).length = 0 := by
      intro h0
      exact hv (List.length_eq_zero.mp h0)
    refine ⟨{ requested := ids.filter (fun id => isHex24 id),
              deletedCount := (store.filter (fun docId =>
                docId ∈ (ids.filter (fun id => isHex24 id)).map lowerHex)).length },
            ?_, rfl, rfl, List.length_filter_le _ _⟩
    simp only [bulkDelete]
    rw [if_neg hne, if_neg hlv]
  · decide

theorem bulk_delete_filters_and_counts_witness :
    ∃ r, bulkDelete [docA] (some [docA, "bad-id", docB]) = Except.ok r ∧
      r.requested = [docA, docB] ∧ r.deletedCount = 1 := by
  obtain ⟨r, h1, h2, h3, -⟩ :=
    (bulk_delete_filters_and_counts [docA] [docA, "bad-id", docB] (by decide)).1
  refine ⟨r, h1, ?_, ?_⟩
  · rw [h2]; decide
  · rw [h3]; decide

/-! ## Resolution projection (C8) -/

/-- C8: the read-path resolution projection is total by construction (it is
a plain function); it resolves every variant of the product, expands every
pair; a pair whose `attributeId` misses the catalog gets an attribute
placeholder with null descriptive fields; every referenced value id is kept
(same count, same id, same order) and, when it cannot be resolved, is
emitted as a null-field placeholder rather than dropped. -/
theorem resolution_total_with_placeholders (catalog : List AttributeRec) (p : Product)
    (attributes : List AttributeRec) (pair : VariantPair) :
    (getOneResolve catalog p).length = p.variants.length ∧
    (resolvePair attributes pair).values.length = (toArray pair.attributesValueId).length ∧
    (attrLookup attributes pair.attributeId = none →
      (resolvePair attributes pair).«attribute» =
        { _id := pair.attributeId, name := none, code := none, type := none,
          isActive := none }) ∧
    (∀ i, i < (toArray pair.attributesValueId).length →
      ∃ vid rv, (toArray pair.attributesValueId)[i]? = some vid ∧
        (resolvePair attributes pair).values[i]? = some rv ∧
        rv._id = vid ∧
        ((∀ a, attrLookup attributes pair.attributeId = some a →
            valueLookup a vid = none) →
          rv = { _id := vid, label := none, value := none, meta := none })) := by
  refine ⟨?_, ?_, ?_, ?_⟩
  · simp [getOneResolve]
  · simp [resolvePair]
  · intro hnone
    simp [resolvePair, hnone]
  · intro i hi
    refine ⟨(toArray pair.attributesValueId)[i],
            resolveValueRecord attributes pair.attributeId
              ((toArray pair.attributesValueId)[i]),
            List.getElem?_eq_getElem hi, ?_, ?_, ?_⟩
    · show ((toArray pair.attributesValueId).map
          (resolveValueRecord attributes pair.attributeId))[i]? = _
      rw [List.getElem?_map, List.getElem?_eq_getElem hi]
      rfl
    · unfold resolveValueRecord
      split
      · split
        · rename_i a ha v hv
          have hfp := List.find?_some hv
          simp only [decide_eq_true_eq] at hfp
          exact hfp
        · rfl
      · rfl
    · intro hall
      unfold resolveValueRecord
      split
      · rename_i a ha
        rw [hall a ha]
      · rfl

theorem resolution_total_with_placeholders_witness :
    (resolvePair [] danglingPair).«attribute» =
      { _id := badV1, name := none, code := none, type := none, isActive := none } ∧
    (resolvePair [] danglingPair).values.length = 1 := by
  have h := resolution_total_with_placeholders [] exVarProd [] danglingPair
  refine ⟨h.2.2.1 rfl, ?_⟩
  rw [h.2.1]
  decide

/-! ## Error propagation (C10) -/

theorem np_price (p : CreatePayload) : (normalizePayloadSlug p).price = p.price := by
  unfold normalizePayloadSlug
  cases p.slug with
  | none => rfl
  | some s =>
    by_cases hs : s = ""
    · simp [hs]
    · simp [hs]

/-- C10 (counterexample): replacing `variants` through an update with a
list violating the variant rules (the target simple product has no
`mainAttributeId`) is expected bad input per the claim, yet the operation
reports the generic 500 internal error, not a typed validation failure. -/
theorem update_bad_variants_internal_counterexample :
    updateById exFind exUpdateBadBody
      = UpdateResp.internalError "Failed to update product" ∧
    exSimple.mainAttributeId = none ∧
    exUpdateBadBody.variants = some (some [exVariant1]) ∧
    exVariant1.values ≠ [] :=
  ⟨by decide, by decide, by decide, by decide⟩

/-- C10 (amended): controller-level validation returns typed failures — a
missing/malformed update id yields the 400 message, a missing price on a
simple create yields the typed `simpleNeedsPrice` failure — but a
validation error raised by the model layer during `save` (e.g. a replaced
variants list violating the variant rules) is caught by the generic
handler and reported as a 500 internal error rather than a typed
validation failure. -/
theorem validation_failures_typed_but_save_errors_generic :
    (∀ find body, body.id = none →
      updateById find body =
        UpdateResp.badRequest "Valid id (24-hex ObjectId) is required in the request body") ∧
    (∀ find body i, body.id = some i → isValidObjectIdStr i = false →
      updateById find body =
        UpdateResp.badRequest "Valid id (24-hex ObjectId) is required in the request body") ∧
    (∀ catalog payload, payload.variants = none → payload.price = none →
      adminCreate catalog payload = Except.error CreateErr.simpleNeedsPrice) ∧
    (∀ find body i product vs e,
      body.id = some i → isValidObjectIdStr i = true → find i = some product →
      body.mainBuild = false → body.category = none → body.variants = some (some vs) →
      mongooseSave { applyBodySlug (applyScalarFields product body) body with
        variants := vs } = Except.error e →
      updateById find body = UpdateResp.internalError "Failed to update product") := by
  refine ⟨?_, ?_, ?_, ?_⟩
  · intro find body h
    simp only [updateById, h]
  · intro find body i hsome hv
    simp only [updateById, hsome]
    rw [if_pos (by simp [hv])]
  · intro catalog payload hv hp
    simp only [adminCreate]
    have hv2 : (normalizePayloadSlug payload).variants = none := by
      rw [np_variants]; exact hv
    simp only [hv2, simpleCreate, np_price, hp]
  · intro find body i product vs e h1 h2 h3 h4 h5 h6 h7
    simp only [updateById, h1]
    rw [if_neg (by simp [h2])]
    simp only [h3]
    rw [if_neg (by simp [h4])]
    simp only [applyCategory, h5, h6, saveUpdated, h7]

theorem validation_failures_typed_but_save_errors_generic_witness :
    updateById exFind { id := none } =
      UpdateResp.badRequest "Valid id (24-hex ObjectId) is required in the request body" ∧
    adminCreate exCatalog { title := "T" } = Except.error CreateErr.simpleNeedsPrice ∧
    updateById exFind exUpdateBadBody
      = UpdateResp.internalError "Failed to update product" := by
  have h := validation_failures_typed_but_save_errors_generic
  refine ⟨h.1 exFind { id := none } rfl,
          h.2.2.1 exCatalog { title := "T" } rfl rfl, ?_⟩
  exact h.2.2.2 exFind exUpdateBadBody updId exSimple [exVariant1]
    "Variant product requires mainAttributeId" rfl (by decide) (by decide) rfl rfl rfl
    (by decide)

/-! ## Effective price / discount (C6) -/

theorem productEffectivePrice_nonneg (p : Product) (now : Int)
    (hp : ∀ x, p.price = some x → 0 ≤ x) (hs : ∀ x, p.salePrice = some x → 0 ≤ x)
    (e : ℚ) (he : productEffectivePrice p now = some e) : 0 ≤ e := by
  unfold productEffectivePrice at he
  split at he
  · rename_i sp hsp
    split at he
    · injection he with h2
      subst h2
      exact hs sp hsp
    · exact hp e he
  · exact hp e he

/-- C6: for every stored product read at time `now`, `effectivePrice` is the
sale price exactly under the claim's condition (`salePrice` present and
`now` inside the open-ended offer window) and the base price otherwise;
`discountPercent` is `round((price-eff)/price*100)` whenever `eff < price`
and `0` otherwise (the code's extra `base > 0` guard is redundant for the
nonnegative prices the schema admits); neither is stored.  The claim's two
concrete examples evaluate as stated. -/
theorem effective_price_and_discount (p : Product) (now : Int)
    (hp : ∀ x, p.price = some x → 0 ≤ x) (hs : ∀ x, p.salePrice = some x → 0 ≤ x) :
    (∀ sp, p.salePrice = some sp → offerWindowContains p now = true →
        productEffectivePrice p now = some sp) ∧
    ((p.salePrice = none ∨ offerWindowContains p now = false) →
        productEffectivePrice p now = p.price) ∧
    (productDiscountPercent p now =
      match p.price, productEffectivePrice p now with
      | some base, some eff =>
        if eff < base then jsRound ((base - eff) / base * 100) else 0
      | _, _ => 0) ∧
    productEffectivePrice exOfferProduct 1000 = some 15 ∧
    productDiscountPercent exOfferProduct 1000 = 25 ∧
    productEffectivePrice exExpiredOffer 1000 = some 20 ∧
    productDiscountPercent exExpiredOffer 1000 = 0 := by
  refine ⟨?_, ?_, ?_, by decide, ?_, by decide, by decide⟩
  · intro sp hsp hw
    simp [productEffectivePrice, hsp, hw]
  · rintro (hn | hw)
    · simp [productEffectivePrice, hn]
    · cases hps : p.salePrice with
      | none => simp [productEffectivePrice, hps]
      | some sp => simp [productEffectivePrice, hps, hw]
  · cases hb : p.price with
    | none =>
      cases he : productEffectivePrice p now with
      | none => simp [productDiscountPercent, hb, he]
      | some e => simp [productDiscountPercent, hb, he]
    | some base =>
      cases he : productEffectivePrice p now with
      | none => simp [productDiscountPercent, hb, he]
      | some e =>
        simp only [productDiscountPercent, hb, he]
        by_cases hlt : e < base
        · have h0 : 0 < base :=
            lt_of_le_of_lt (productEffectivePrice_nonneg p now hp hs e he) hlt
          rw [if_pos ⟨h0, hlt⟩, if_pos hlt]
        · rw [if_neg (fun hc => hlt hc.2), if_neg hlt]
  · simp only [productDiscountPercent, productEffectivePrice, offerWindowContains,
      exOfferProduct, jsRound]
    norm_num [Rat.floor_def']

theorem effective_price_and_discount_witness :
    productEffectivePrice exOfferProduct 1000 = some 15 ∧
    productDiscountPercent exOfferProduct 1000 = 25 := by
  have h := effective_price_and_discount exOfferProduct 1000
    (fun x hx => by simp [exOfferProduct] at hx; subst hx; norm_num)
    (fun x hx => by simp [exOfferProduct] at hx; subst hx; norm_num)
  exact ⟨h.2.2.2.1, h.2.2.2.2.1⟩

theorem value_violations_complete_per_pair_witness :
    ∃ v ∈ [badVariant5], ∃ pair ∈ v.values, pair.attributeId = attrA ∧
      ∃ allowed, valuesByAttr (attrsFind exCatalog [attrA]) attrA = some allowed ∧
        [badV1] = (toArray pair.attributesValueId).filter (fun vid => ¬ vid ∈ allowed) ∧
        ([badV1] : List String) ≠ [] :=
  value_violations_complete_per_pair (valuesByAttr (attrsFind exCatalog [attrA]))
    [badVariant5] attrA [badV1] (by decide)

/-- C9: slug normalization (lower-case, trim, collapse runs of
non-alphanumerics to one hyphen, strip leading/trailing hyphens) is
idempotent on every string, and sends `"Crew Socks!!"` to `"crew-socks"`
and `"crew-socks"` to itself. -/
theorem slug_normalization_idempotent :
    (∀ s : String, normalizeSlug (normalizeSlug s) = normalizeSlug s) ∧
    normalizeSlug "Crew Socks!!" = "crew-socks" ∧
    normalizeSlug "crew-socks" = "crew-socks" := by
  refine ⟨?_, by decide, by decide⟩
  intro s
  show (⟨normalizeSlugChars (normalizeSlugChars s.data)⟩ : String) = ⟨normalizeSlugChars s.data⟩
  exact congrArg String.mk (goodSlug_fixed _ (normalizeSlugChars_good s.data))

end CreatorUniverse
